import Mathlib

/-!
Verification of the networked-session core of the `dogsite` chess program
(`src/pychess/main.py`): the `NetPlay` transport channel, its wire framing,
the color-selection negotiation, and the clock / move-relay handling of the
`main_game` loop.  Board legality and terminal detection are delegated by
the program to the external `chess` library, so they are modelled here by
an abstract `Engine` record of the consumed capabilities; everything else
is a direct shallow embedding of the Python source.  Clock values (Python
floats) are modelled as rationals, which keeps assignment and comparison
exact where the claims need them.
-/

namespace PyChess

/-- The two sides a peer can choose ('white' / 'black' in the source;
"Side A" / "Side B" in the specification). -/
inductive SColor
  | white
  | black
deriving DecidableEq

/-- `'black' if c == 'white' else 'white'` — the flip used throughout
`color_select_screen`. -/
def SColor.flip : SColor → SColor
  | .white => .black
  | .black => .white

/-! ## Transport channel (`NetPlay`) -/

/-- The state of `self.sock`: `None` (host before accept), a connected
socket, or a socket whose OS handle has been closed (note that
`NetPlay.close` never sets `self.sock = None`, it only calls
`self.sock.close()`). -/
inductive SockState
  | noSock
  | connected
  | closedSock
deriving DecidableEq

/-- An item of the `queue.Queue` inbox: `('connected', info)`,
`('msg', payload)`, or `('closed', None)`. -/
inductive NetEvent (α : Type)
  | connected
  | msg (p : α)
  | closed
deriving DecidableEq

/-- Observable state of one `NetPlay` object: the `alive` flag, the socket,
whether the host's listener is still open, and the inbox queue (as the list
of events enqueued so far). -/
structure Chan (α : Type) where
  alive : Bool
  sock : SockState
  listenerOpen : Bool
  inbox : List (NetEvent α)
deriving DecidableEq

/-- `NetPlay.send` (lines 85–92): `if not self.sock: return`; otherwise
serialize and `sendall`; any exception enqueues `('closed', None)`.
`writeOk` says whether a `sendall` on a live socket succeeds; a `sendall`
on a closed socket always raises.  The second component is the record
written to the wire (`none` when nothing was written). -/
def sendStep (d : α) (writeOk : Bool) (ch : Chan α) : Chan α × Option α :=
  match ch.sock with
  | .noSock => (ch, none)
  | .connected =>
      if writeOk then (ch, some d)
      else ({ ch with inbox := ch.inbox ++ [NetEvent.closed] }, none)
  | .closedSock => ({ ch with inbox := ch.inbox ++ [NetEvent.closed] }, none)

/-- `NetPlay.close` (lines 100–111): sets `alive = False`, closes the
socket if there is one and the listener if there is one, swallowing all
exceptions.  It enqueues nothing itself. -/
def closeStep (ch : Chan α) : Chan α :=
  { ch with
    alive := false
    sock := match ch.sock with
      | .noSock => .noSock
      | _ => .closedSock
    listenerOpen := false }

/-- The operations that touch a channel's observable state over its
lifetime: a `send` call (with the fate of its write), a `close` call, the
accept task succeeding (`('connected', …)` enqueued, read task started) or
failing (`('closed', None)` enqueued), the read task enqueuing a decoded
message, and the read task terminating (its `finally` enqueues
`('closed', None)`). -/
inductive ChanOp (α : Type)
  | send (d : α) (writeOk : Bool)
  | close
  | acceptOk
  | acceptFail
  | recvMsg (p : α)
  | readTaskEnd

/-- One channel operation, as performed by the source. -/
def runOp (ch : Chan α) : ChanOp α → Chan α
  | .send d writeOk => (sendStep d writeOk ch).1
  | .close => closeStep ch
  | .acceptOk => { ch with sock := .connected, inbox := ch.inbox ++ [NetEvent.connected] }
  | .acceptFail => { ch with inbox := ch.inbox ++ [NetEvent.closed] }
  | .recvMsg p => { ch with inbox := ch.inbox ++ [NetEvent.msg p] }
  | .readTaskEnd => { ch with inbox := ch.inbox ++ [NetEvent.closed] }

/-- A sequence of channel operations. -/
def runOps (ch : Chan α) (ops : List (ChanOp α)) : Chan α :=
  ops.foldl runOp ch

/-- `NetPlay('host', …)` right after the constructor: no connected socket
yet, listener bound, empty inbox. -/
def hostInitU : Chan Unit :=
  { alive := true, sock := .noSock, listenerOpen := true, inbox := [] }

/-- `NetPlay('join', …)` right after the constructor: connected socket,
no listener, empty inbox. -/
def joinInitU : Chan Unit :=
  { alive := true, sock := .connected, listenerOpen := false, inbox := [] }

/-- Is an inbox item the `('closed', None)` event? -/
def isClosedEv : NetEvent α → Bool
  | .closed => true
  | _ => false

/-- Number of `('closed', None)` events in a list of inbox items. -/
def countClosed (l : List (NetEvent α)) : Nat :=
  l.countP isClosedEv

/-! ## Background read task (`NetPlay._recv`, lines 65–83)

The buffer handling is embedded directly: bytes are modelled as `Char`
lists, the record delimiter is `'\n'`, and the external `json.loads` is a
parameter `decode` (`none` = the decode raised). -/

/-- The body of `line, buf = buf.split(b'\x0A', 1)` processing: an empty
line is skipped (`if not line: continue`); otherwise the line is decoded
and, on success, a `('msg', m)` event is produced; a decode failure
produces nothing (`except Exception: pass`). -/
def lineEvents (decode : List Char → Option α) (line : List Char) : List (NetEvent α) :=
  if line = [] then []
  else
    match decode line with
    | some m => [NetEvent.msg m]
    | none => []

/-- The `while b'\x0A' in buf` loop: `cur` is the part of the buffer before
the next delimiter read so far.  Returns the events produced and the
leftover buffer (the bytes after the last delimiter). -/
def drainGo (decode : List Char → Option α) (cur : List Char) :
    List Char → List (NetEvent α) × List Char
  | [] => ([], cur)
  | c :: rest =>
      if c = '\n' then
        (lineEvents decode cur ++ (drainGo decode [] rest).1, (drainGo decode [] rest).2)
      else
        drainGo decode (cur ++ [c]) rest

/-- Drain all complete delimiter-terminated records from a buffer. -/
def drainBuf (decode : List Char → Option α) (buf : List Char) :
    List (NetEvent α) × List Char :=
  drainGo decode [] buf

/-- The `while self.alive` read loop.  Each element of `reads` is one
result of `s.recv(4096)`: `none` means the call raised (socket error),
`some []` is a zero-length read (EOF), `some data` is data.  The list
ending models `self.alive` having become false.  Returns the `('msg', …)`
events enqueued by the loop body. -/
def recvGo (decode : List Char → Option α) (buf : List Char) :
    List (Option (List Char)) → List (NetEvent α)
  | [] => []
  | none :: _ => []
  | some data :: rest =>
      if data = [] then []
      else
        (drainBuf decode (buf ++ data)).1 ++ recvGo decode (drainBuf decode (buf ++ data)).2 rest

/-- The whole read task: the loop's events followed by the single
`('closed', None)` that the `finally` block enqueues when the task ends. -/
def recvTask (decode : List Char → Option α) (reads : List (Option (List Char))) :
    List (NetEvent α) :=
  recvGo decode [] reads ++ [NetEvent.closed]

/-! ## Wire records and framing

The program writes to the wire in exactly two places:
`color_select_screen` sends `{"type": "choose", "color": local_choice}`
and `main_game` sends
`{"type": "move", "uci": …, "wtime": max(0, white_time), "btime": max(0, black_time)}`.
`NetPlay.send` serializes a record as `json.dumps(d) + '\x0A'`.
The spec names the color values "A"/"B" and the move fields
"notation"/"clockA"/"clockB"; the source's names are kept here. -/

/-- The closed set of records the two send sites can pass to
`NetPlay.send`. -/
inductive WireRec
  | choose (c : SColor)
  | move (uci : String) (wtime btime : ℚ)
deriving DecidableEq

/-- The string sent for each side ('white' / 'black'). -/
def colorStr : SColor → String
  | .white => "white"
  | .black => "black"

/-- `json.dumps` of a record, with number rendering abstracted as
`numStr` (Python float formatting). -/
def jsonOfRec (numStr : ℚ → String) : WireRec → String
  | .choose c =>
      "\x7b\"type\": \"choose\", \"color\": \"" ++ colorStr c ++ "\"\x7d"
  | .move u w b =>
      "\x7b\"type\": \"move\", \"uci\": \"" ++ u ++ "\", \"wtime\": " ++ numStr w
        ++ ", \"btime\": " ++ numStr b ++ "\x7d"

/-- The bytes `NetPlay.send` writes for one record: the encoded object
followed by the single delimiter byte. -/
def sendWire (numStr : ℚ → String) (r : WireRec) : String :=
  jsonOfRec numStr r ++ "\n"

/-- The record built at the `color_select_screen` send site. -/
def chooseRecordOf (c : SColor) : WireRec :=
  .choose c

/-- The record built at the `main_game` send site
(`"wtime": max(0, white_time), "btime": max(0, black_time)`). -/
def moveRecordOf (u : String) (wt bt : ℚ) : WireRec :=
  .move u (max 0 wt) (max 0 bt)

/-- Side conditions under which the encoding is delimiter-free inside the
record: the move notation and the rendered numbers contain no delimiter
byte (true of `chess.Move.uci()` output and of Python float formatting). -/
def recClean (numStr : ℚ → String) : WireRec → Prop
  | .choose _ => True
  | .move u w b =>
      '\n' ∉ u.data ∧ '\n' ∉ (numStr w).data ∧ '\n' ∉ (numStr b).data

/-! ## Color negotiation (`color_select_screen`, lines 611–711) -/

/-- One peer's negotiation state: `local_choice`, `remote_choice`, the
`sent` flag, the content of the one announcement this peer sent (fixed at
send time), plus two instrumentation counters (how often the peer flipped
its choice in the receive handler / in the pick handler).  The counters
are ghosts: no handler reads them. -/
structure PeerState where
  loc : Option SColor
  rem : Option SColor
  sent : Bool
  sentMsg : Option SColor
  recvFlips : Nat
  pickFlips : Nat
deriving DecidableEq

/-- Receiving `{"type": "choose", "color": c}` (lines 662–665): record the
peer's choice; if a local choice exists and collides, flip the local
choice.  Nothing is sent here. -/
def recvChoose (c : SColor) (s : PeerState) : PeerState :=
  match s.loc with
  | some l =>
      if c = l then
        { s with rem := some c, loc := some l.flip, recvFlips := s.recvFlips + 1 }
      else
        { s with rem := some c }
  | none => { s with rem := some c }

/-- The user picking a side (lines 685–706): if the recorded remote choice
equals the desired side, take the other side instead; announce the
resulting choice once (`if net and not sent`). -/
def pickChoose (desired : SColor) (s : PeerState) : PeerState :=
  let l := if s.rem = some desired then desired.flip else desired
  let pf := if s.rem = some desired then s.pickFlips + 1 else s.pickFlips
  if s.sent then
    { s with loc := some l, pickFlips := pf }
  else
    { s with loc := some l, pickFlips := pf, sent := true, sentMsg := some l }

/-- The resolution step (lines 708–711): once both choices are recorded,
flip the local choice if it still equals the remote one, and return it. -/
def resolveStep (l r : SColor) : SColor :=
  if l = r then l.flip else l

/-- The color `color_select_screen` returns for a peer, once both a local
and a remote choice are recorded (`none` while negotiation is not yet
resolvable). -/
def finalColor (s : PeerState) : Option SColor :=
  match s.loc, s.rem with
  | some l, some r => some (resolveStep l r)
  | _, _ => none

/-- Total number of times a peer flipped its choice. -/
def totalFlips (s : PeerState) : Nat :=
  s.recvFlips + s.pickFlips

/-- The four observable negotiation events of a two-peer run: peer 1
picks, peer 2 picks, peer 1 receives peer 2's announcement, peer 2
receives peer 1's announcement. -/
inductive NegEv
  | p1
  | p2
  | r1
  | r2
deriving DecidableEq

/-- Apply one negotiation event to the pair of peer states (`d1`, `d2` are
the sides the users ask for). -/
def negStep (d1 d2 : SColor) (ps : PeerState × PeerState) : NegEv → PeerState × PeerState
  | .p1 => (pickChoose d1 ps.1, ps.2)
  | .p2 => (ps.1, pickChoose d2 ps.2)
  | .r1 =>
      match ps.2.sentMsg with
      | some c => (recvChoose c ps.1, ps.2)
      | none => ps
  | .r2 =>
      match ps.1.sentMsg with
      | some c => (ps.1, recvChoose c ps.2)
      | none => ps

/-- Initial state of a peer entering `color_select_screen`. -/
def initPeer : PeerState :=
  { loc := none, rem := none, sent := false, sentMsg := none, recvFlips := 0, pickFlips := 0 }

/-- Run a schedule of negotiation events from the initial two-peer state. -/
def runSched (d1 d2 : SColor) (sched : List NegEv) : PeerState × PeerState :=
  sched.foldl (negStep d1 d2) (initPeer, initPeer)

/-- A list of events is a full interleaving when each of the four events
occurs exactly once. -/
def isSched (s : List NegEv) : Bool :=
  s.count NegEv.p1 == 1 && s.count NegEv.p2 == 1 &&
    s.count NegEv.r1 == 1 && s.count NegEv.r2 == 1

/-- Causal validity of an interleaving: a peer's announcement is received
only after it was sent. -/
def okOrder (s : List NegEv) : Bool :=
  (s.indexOf NegEv.p2 < s.indexOf NegEv.r1) && (s.indexOf NegEv.p1 < s.indexOf NegEv.r2)

/-! ## Main game loop (`main_game`, lines 714–997)

The rules engine (the external `chess` library) is abstracted as the
record of capabilities the loop consumes; moves travel as their `uci`
strings. -/

/-- The rules-engine capabilities `main_game` consumes: legality of a
decoded move, applying it, whose turn a position reports
(`board.turn == chess.WHITE`), and terminal detection. -/
structure Engine (B : Type) where
  isLegal : B → String → Bool
  push : B → String → B
  turnWhite : B → Bool
  isCheckmate : B → Bool
  isStalemate : B → Bool

/-- A decoded `{"type": "move", …}` payload: `payload['uci']` plus the
optional `wtime`/`btime` fields (`payload.get` falls back to the local
value when a field is absent). -/
structure MovePayload where
  uci : String
  wtime : Option ℚ
  btime : Option ℚ
deriving DecidableEq

/-- The loop state the claims are about: the board, both clock values,
`white_to_move`, `game_over`, `peer_left`, whether `net` is still set, and
`last_move`. -/
structure PlayState (B : Type) where
  board : B
  whiteTime : ℚ
  blackTime : ℚ
  whiteToMove : Bool
  gameOver : Bool
  peerLeft : Bool
  netOpen : Bool
  lastMove : Option String
deriving DecidableEq

/-- Processing one inbound `('msg', {'type': 'move', …})` event
(lines 827–846): if the decoded move is legal it is pushed, the clocks are
overwritten with the transmitted values (falling back to the local value
for an absent field), `white_to_move` is recomputed from the engine's
post-move turn, and terminal conditions are queried; otherwise nothing at
all happens.  This path sends nothing to the peer. -/
def applyMoveMsg (eng : Engine B) (p : MovePayload) (s : PlayState B) : PlayState B :=
  if eng.isLegal s.board p.uci then
    let b2 := eng.push s.board p.uci
    { s with
      board := b2
      lastMove := some p.uci
      whiteTime := p.wtime.getD s.whiteTime
      blackTime := p.btime.getD s.blackTime
      whiteToMove := eng.turnWhite b2
      gameOver := s.gameOver || (eng.isCheckmate b2 || eng.isStalemate b2) }
  else s

/-- An inbound event as seen by the `main_game` drain: a decoded move
message, any other message (`choose` or unknown type — ignored here), a
`('connected', …)` event (ignored here), or `('closed', None)`. -/
inductive GEvent
  | moveMsg (p : MovePayload)
  | otherMsg
  | connectedEv
  | closedEv
deriving DecidableEq

/-- The drain's event dispatch: a `closed` event sets `peer_left = True`,
closes and clears `net`; everything but a move message is otherwise
ignored. -/
def handleGEvent (eng : Engine B) (e : GEvent) (s : PlayState B) : PlayState B :=
  match e with
  | .moveMsg p => applyMoveMsg eng p s
  | .closedEv => { s with peerLeft := true, netOpen := false }
  | _ => s

/-- The inner `while True` poll loop (lines 822–857): events are handled
in order; each iteration first checks `net` (which a `closed` event
clears), so nothing is consumed after a `closed`. -/
def drainEvents (eng : Engine B) (s : PlayState B) : List GEvent → PlayState B
  | [] => s
  | e :: rest =>
      if s.netOpen then drainEvents eng (handleGEvent eng e s) rest else s

/-- The clock block of one tick (lines 859–870): only when neither
`game_over` nor `peer_left`, the side to move loses `dt`, and its flag
falling sets `game_over`. -/
def tickClocks (dt : ℚ) (s : PlayState B) : PlayState B :=
  if !s.gameOver && !s.peerLeft then
    if s.whiteToMove then
      { s with
        whiteTime := s.whiteTime - dt
        gameOver := if s.whiteTime - dt ≤ 0 then true else s.gameOver }
    else
      { s with
        blackTime := s.blackTime - dt
        gameOver := if s.blackTime - dt ≤ 0 then true else s.gameOver }
  else s

/-- One tick of the play loop, restricted to its two state-mutating
phases in source order: drain the inbox (only `if net and not peer_left`),
then advance the clocks. -/
def gameTick (eng : Engine B) (s : PlayState B) (evs : List GEvent) (dt : ℚ) : PlayState B :=
  let s1 := if s.netOpen && !s.peerLeft then drainEvents eng s evs else s
  tickClocks dt s1

/-! ## Concrete instances used by witnesses and counterexamples -/

/-- A minimal stand-in for the out-of-scope rules engine: the board is
just the side to move, every move is legal, and pushing flips the turn
(the one contract of the real engine the claims use). -/
def flipEngine : Engine Bool :=
  { isLegal := fun _ _ => true
    push := fun b _ => !b
    turnWhite := fun b => b
    isCheckmate := fun _ => false
    isStalemate := fun _ => false }

/-- A stand-in engine whose position rejects every candidate move. -/
def rejectEngine : Engine Bool :=
  { isLegal := fun _ _ => false
    push := fun b _ => !b
    turnWhite := fun b => b
    isCheckmate := fun _ => false
    isStalemate := fun _ => false }

/-- A mid-game state: white to move, ten minutes each, peer connected. -/
def st1 : PlayState Bool :=
  { board := true, whiteTime := 600, blackTime := 600, whiteToMove := true,
    gameOver := false, peerLeft := false, netOpen := true, lastMove := none }

/-- A state in which the game is already over (local flag fall) but the
peer has not left and the channel is still drained. -/
def stOver : PlayState Bool :=
  { board := true, whiteTime := 600, blackTime := 600, whiteToMove := true,
    gameOver := true, peerLeft := false, netOpen := true, lastMove := none }

/-- A state after a `closed` event has been processed. -/
def stPL : PlayState Bool :=
  { board := true, whiteTime := 600, blackTime := 600, whiteToMove := true,
    gameOver := false, peerLeft := true, netOpen := false, lastMove := none }

/-- A concrete decode function for witnesses: only the record "ok"
decodes. -/
def dec0 : List Char → Option Nat :=
  fun l => if l = ['o', 'k'] then some 0 else none

/-- A concrete number rendering for witnesses. -/
def numStr0 : ℚ → String :=
  fun _ => "0"

/-- A peer that has chosen white and announced it. -/
def peerW : PeerState :=
  { loc := some SColor.white, rem := none, sent := true,
    sentMsg := some SColor.white, recvFlips := 0, pickFlips := 0 }

/-- A race-free schedule: both peers pick, then both receive. -/
def schedW : List NegEv :=
  [NegEv.p1, NegEv.p2, NegEv.r1, NegEv.r2]

/-! ## Helper lemmas -/

theorem lastOfConcat (xs : List β) (a : β) : (xs ++ [a]).getLast? = some a := by
  induction xs with
  | nil => rfl
  | cons x xs ih =>
      cases xs with
      | nil => rfl
      | cons y ys => simpa using ih

theorem lineEvents_countClosed (decode : List Char → Option α) (line : List Char) :
    countClosed (lineEvents decode line) = 0 := by
  unfold lineEvents countClosed
  split
  · rfl
  · cases decode line <;> rfl

theorem drainGo_cons (decode : List Char → Option α) (cur : List Char) (c : Char)
    (rest : List Char) :
    drainGo decode cur (c :: rest) =
      if c = '\n' then
        (lineEvents decode cur ++ (drainGo decode [] rest).1, (drainGo decode [] rest).2)
      else drainGo decode (cur ++ [c]) rest := rfl

theorem drainGo_countClosed (decode : List Char → Option α) (buf : List Char) :
    ∀ cur, countClosed (drainGo decode cur buf).1 = 0 := by
  induction buf with
  | nil => intro cur; rfl
  | cons c rest ih =>
      intro cur
      rw [drainGo_cons]
      by_cases h : c = '\n'
      · rw [if_pos h]
        unfold countClosed
        rw [List.countP_append]
        have h1 := lineEvents_countClosed decode cur
        unfold countClosed at h1
        rw [h1]
        have h2 := ih []
        unfold countClosed at h2
        rw [h2]
      · rw [if_neg h]
        exact ih (cur ++ [c])

theorem recvGo_countClosed (decode : List Char → Option α) (reads : List (Option (List Char))) :
    ∀ buf, countClosed (recvGo decode buf reads) = 0 := by
  induction reads with
  | nil => intro buf; rfl
  | cons r rest ih =>
      intro buf
      cases r with
      | none => rfl
      | some data =>
          show countClosed
              (if data = [] then []
               else (drainBuf decode (buf ++ data)).1
                 ++ recvGo decode (drainBuf decode (buf ++ data)).2 rest) = 0
          by_cases h : data = []
          · rw [if_pos h]; rfl
          · rw [if_neg h]
            unfold countClosed
            rw [List.countP_append]
            have h1 := drainGo_countClosed decode (buf ++ data) []
            unfold countClosed at h1
            unfold drainBuf
            rw [h1]
            have h2 := ih (drainGo decode [] (buf ++ data)).2
            unfold countClosed at h2
            rw [h2]

theorem drainGo_line (decode : List Char → Option α) (rest : List Char) :
    ∀ (l cur : List Char), '\n' ∉ l →
      drainGo decode cur (l ++ '\n' :: rest) =
        (lineEvents decode (cur ++ l) ++ (drainGo decode [] rest).1,
          (drainGo decode [] rest).2) := by
  intro l
  induction l with
  | nil =>
      intro cur _
      show drainGo decode cur ('\n' :: rest) = _
      rw [drainGo_cons, if_pos rfl]
      simp
  | cons c l2 ih =>
      intro cur hn
      have hc : c ≠ '\n' := by
        intro h; exact hn (h ▸ List.mem_cons_self c l2)
      have hl2 : '\n' ∉ l2 := fun h => hn (List.mem_cons_of_mem c h)
      show drainGo decode cur (c :: (l2 ++ '\n' :: rest)) = _
      rw [drainGo_cons, if_neg hc, ih (cur ++ [c]) hl2]
      simp

/-! ## Claim theorems -/

/-- C2 (counterexample): the read task is NOT the sole producer of the
`Closed` event, and more than one `Closed` can be enqueued over a
channel's lifetime.  Concretely, for a host channel whose accept succeeds:
a failing `send` (write error, `NetPlay.send` lines 89–92) enqueues a
`Closed` on its own, and the read task's termination then enqueues a
second one, which moreover follows the first. -/
theorem multiple_closed_events_possible :
    countClosed (runOps hostInitU [ChanOp.send () false]).inbox = 0 ∧
    countClosed (runOps hostInitU [ChanOp.acceptOk, ChanOp.send () false]).inbox = 1 ∧
    (runOps hostInitU
        [ChanOp.acceptOk, ChanOp.send () false, ChanOp.readTaskEnd]).inbox
      = [NetEvent.connected, NetEvent.closed, NetEvent.closed] ∧
    countClosed (runOps hostInitU
        [ChanOp.acceptOk, ChanOp.send () false, ChanOp.readTaskEnd]).inbox = 2 := by
  decide

/-- C2 (amended): the background read task itself enqueues exactly one
`Closed` event per lifetime, and it is the last event the task enqueues;
but `send` write failures and accept failure also enqueue `Closed`, so a
channel's inbox can receive several `Closed` events and events can follow
a `Closed`. -/
theorem read_task_single_closed (decode : List Char → Option α)
    (reads : List (Option (List Char))) :
    countClosed (recvTask decode reads) = 1 ∧
    (recvTask decode reads).getLast? = some NetEvent.closed := by
  constructor
  · unfold recvTask countClosed
    rw [List.countP_append]
    have h := recvGo_countClosed decode reads []
    unfold countClosed at h
    rw [h]
    rfl
  · exact lastOfConcat _ _

/-- C5 (counterexample): after `close()`, `send` is not a no-op.
`NetPlay.close` never clears `self.sock`, so a later `send` calls
`sendall` on a closed socket, which raises, and the handler enqueues a
`('closed', None)` event — an observable state change.  Shown on a joiner
channel with an empty inbox. -/
theorem send_after_close_not_noop :
    (sendStep () true (closeStep joinInitU)).1 ≠ closeStep joinInitU ∧
    (sendStep () true (closeStep joinInitU)).1.inbox = [NetEvent.closed] := by
  decide

/-- C5 (amended): `close()` is idempotent, never raises (every exception
inside it is swallowed), and enqueues nothing itself; after `close()` a
`send` writes nothing to the wire, but when a connected socket existed the
`send` is not a state no-op: it enqueues a `Closed` event via its
write-failure path. -/
theorem close_idempotent_send_inert (ch : Chan α) (d : α) (writeOk : Bool) :
    closeStep (closeStep ch) = closeStep ch ∧
    (closeStep ch).inbox = ch.inbox ∧
    (sendStep d writeOk (closeStep ch)).2 = none ∧
    (ch.sock = SockState.connected →
      (sendStep d writeOk (closeStep ch)).1.inbox = ch.inbox ++ [NetEvent.closed]) := by
  refine ⟨?_, rfl, ?_, ?_⟩
  · cases h : ch.sock <;> simp [closeStep, h]
  · cases h : ch.sock <;> simp [closeStep, sendStep, h]
  · intro h
    simp [closeStep, sendStep, h]

/-- C5 (witness): the amended theorem applied to the joiner channel. -/
theorem close_idempotent_send_inert_witness :
    joinInitU.sock = SockState.connected ∧
    (sendStep () true (closeStep joinInitU)).1.inbox = joinInitU.inbox ++ [NetEvent.closed] :=
  ⟨rfl, (close_idempotent_send_inert joinInitU () true).2.2.2 rfl⟩

/-- C7: in the read task's buffer loop, records are decoded independently;
when a malformed record (decode failure) arrives immediately before a
valid record in the same buffered read, the malformed record is silently
dropped while the valid record is still decoded and enqueued as a
`('msg', …)` event, and the task keeps reading (connection stays open). -/
theorem malformed_then_valid_record (decode : List Char → Option α)
    (bad good : List Char) (m : α)
    (hb : '\n' ∉ bad) (hg : '\n' ∉ good) (hgne : good ≠ [])
    (hdb : decode bad = none) (hdg : decode good = some m) :
    drainBuf decode (bad ++ '\n' :: (good ++ ['\n'])) = ([NetEvent.msg m], []) ∧
    ∀ rest, recvGo decode [] (some (bad ++ '\n' :: (good ++ ['\n'])) :: rest)
      = NetEvent.msg m :: recvGo decode [] rest := by
  have hone : drainBuf decode (bad ++ '\n' :: (good ++ ['\n'])) = ([NetEvent.msg m], []) := by
    unfold drainBuf
    rw [drainGo_line decode (good ++ ['\n']) bad [] hb]
    have h2 : (['\n'] : List Char) = '\n' :: [] := rfl
    rw [h2, drainGo_line decode [] good [] hg]
    have hbad : lineEvents decode ([] ++ bad) = [] := by
      unfold lineEvents
      by_cases h : ([] : List Char) ++ bad = []
      · rw [if_pos h]
      · rw [if_neg h]
        simp only [List.nil_append] at *
        rw [hdb]
    have hgood : lineEvents decode ([] ++ good) = [NetEvent.msg m] := by
      unfold lineEvents
      rw [if_neg (by simpa using hgne)]
      simp only [List.nil_append]
      rw [hdg]
    rw [hbad, hgood]
    rfl
  refine ⟨hone, ?_⟩
  intro rest
  have hne : bad ++ '\n' :: (good ++ ['\n']) ≠ [] := by
    cases bad <;> simp
  show (if bad ++ '\n' :: (good ++ ['\n']) = [] then []
        else (drainBuf decode ([] ++ (bad ++ '\n' :: (good ++ ['\n'])))).1
          ++ recvGo decode (drainBuf decode ([] ++ (bad ++ '\n' :: (good ++ ['\n'])))).2 rest)
      = NetEvent.msg m :: recvGo decode [] rest
  rw [if_neg hne]
  simp only [List.nil_append]
  rw [hone]
  rfl

/-- C7 (witness): a concrete malformed record "z" followed by the valid
record "ok" in one buffered read. -/
theorem malformed_then_valid_record_witness :
    dec0 ['z'] = none ∧ dec0 ['o', 'k'] = some 0 ∧
    drainBuf dec0 (['z'] ++ '\n' :: (['o', 'k'] ++ ['\n'])) = ([NetEvent.msg 0], []) :=
  ⟨rfl, rfl,
    (malformed_then_valid_record dec0 ['z'] ['o', 'k'] 0 (by decide) (by decide)
      (by decide) rfl rfl).1⟩

/-- C10: on a listening channel before any peer has connected,
`self.sock` is `None`, so `send` returns immediately: it writes nothing,
raises nothing, changes no state, and enqueues no event. -/
theorem send_without_socket_noop (ch : Chan α) (d : α) (writeOk : Bool)
    (h : ch.sock = SockState.noSock) :
    sendStep d writeOk ch = (ch, none) := by
  simp [sendStep, h]

/-- C10 (witness): a freshly constructed host channel. -/
theorem send_without_socket_noop_witness :
    hostInitU.sock = SockState.noSock ∧ sendStep () true hostInitU = (hostInitU, none) :=
  ⟨rfl, send_without_socket_noop hostInitU () true rfl⟩

/-- C1: when an inbound move message carries a move legal in the
receiver's position together with both clock fields, the receiver pushes
the move onto its board, overwrites BOTH local clock values with exactly
the transmitted values (discarding its locally-tracked ones), and the side
to move afterwards is the opposite of the side that made the move (the
side to move of the pre-move position).  The turn-flip hypothesis is the
contract of the external rules engine (`board.push` flips `board.turn`). -/
theorem recv_legal_move_applies_and_overrides {B : Type} (eng : Engine B)
    (s : PlayState B) (u : String) (w b : ℚ)
    (hleg : eng.isLegal s.board u = true)
    (hflip : eng.turnWhite (eng.push s.board u) = !eng.turnWhite s.board) :
    (applyMoveMsg eng ⟨u, some w, some b⟩ s).board = eng.push s.board u ∧
    (applyMoveMsg eng ⟨u, some w, some b⟩ s).whiteTime = w ∧
    (applyMoveMsg eng ⟨u, some w, some b⟩ s).blackTime = b ∧
    (applyMoveMsg eng ⟨u, some w, some b⟩ s).whiteToMove = !eng.turnWhite s.board := by
  simp [applyMoveMsg, hleg, hflip]

/-- C1 (witness): the stand-in engine, a legal move "e2e4" with
transmitted clocks 5 and 7 arriving at a peer whose local clocks are 600. -/
theorem recv_legal_move_applies_and_overrides_witness :
    flipEngine.isLegal st1.board "e2e4" = true ∧
    flipEngine.turnWhite (flipEngine.push st1.board "e2e4") = !flipEngine.turnWhite st1.board ∧
    ((applyMoveMsg flipEngine ⟨"e2e4", some 5, some 7⟩ st1).board
        = flipEngine.push st1.board "e2e4" ∧
      (applyMoveMsg flipEngine ⟨"e2e4", some 5, some 7⟩ st1).whiteTime = 5 ∧
      (applyMoveMsg flipEngine ⟨"e2e4", some 5, some 7⟩ st1).blackTime = 7 ∧
      (applyMoveMsg flipEngine ⟨"e2e4", some 5, some 7⟩ st1).whiteToMove
        = !flipEngine.turnWhite st1.board) :=
  ⟨rfl, rfl, recv_legal_move_applies_and_overrides flipEngine st1 "e2e4" 5 7 rfl rfl⟩

/-- C6: an inbound move message whose decoded move fails the local
legality check is discarded atomically — the entire loop state (board,
both clocks, side to move, `game_over`, `peer_left`, the open channel) is
returned unchanged; the handling path contains no send, so nothing is
surfaced to the peer. -/
theorem recv_illegal_move_discarded {B : Type} (eng : Engine B)
    (p : MovePayload) (s : PlayState B)
    (hleg : eng.isLegal s.board p.uci = false) :
    applyMoveMsg eng p s = s := by
  simp [applyMoveMsg, hleg]

/-- C6 (witness): a rejecting position discards the payload, leaving the
state identical. -/
theorem recv_illegal_move_discarded_witness :
    rejectEngine.isLegal st1.board "e2e4" = false ∧
    applyMoveMsg rejectEngine ⟨"e2e4", some 5, some 7⟩ st1 = st1 :=
  ⟨rfl, recv_illegal_move_discarded rejectEngine ⟨"e2e4", some 5, some 7⟩ st1 rfl⟩

/-- C8 (counterexample): it is not true that at most one side's clock
decreases per tick, nor that clocks never decrease outside the Playing
state.  A tick whose drain processes a legal move message overwrites both
clocks with the transmitted snapshot — here from 600 each down to 1 each
in a single tick — and the drain is not guarded by `game_over`, so this
happens even on a tick after the game is over (`stOver.gameOver = true`). -/
theorem clock_override_after_game_over :
    stOver.gameOver = true ∧
    (gameTick flipEngine stOver [GEvent.moveMsg ⟨"e2e4", some 1, some 1⟩] 0).whiteTime
        < stOver.whiteTime ∧
    (gameTick flipEngine stOver [GEvent.moveMsg ⟨"e2e4", some 1, some 1⟩] 0).blackTime
        < stOver.blackTime := by
  decide

/-- C8 (amended): the elapsed-time decay of a tick decrements only the
clock of the side to move, and only when the game is not over and the peer
has not left; once `peer_left` holds, a whole tick (drain and decay) is
the identity, so no clock ever changes again.  (Clock overwrites by
inbound legal moves — see the counterexample — are the only other writes
and are not guarded by `game_over`.) -/
theorem tick_clock_discipline {B : Type} (eng : Engine B) (s : PlayState B)
    (evs : List GEvent) (dt : ℚ) :
    (tickClocks dt s).whiteTime =
      (if s.gameOver = false ∧ s.peerLeft = false ∧ s.whiteToMove = true
        then s.whiteTime - dt else s.whiteTime) ∧
    (tickClocks dt s).blackTime =
      (if s.gameOver = false ∧ s.peerLeft = false ∧ s.whiteToMove = false
        then s.blackTime - dt else s.blackTime) ∧
    (s.peerLeft = true → gameTick eng s evs dt = s) := by
  refine ⟨?_, ?_, ?_⟩
  · cases hg : s.gameOver <;> cases hp : s.peerLeft <;> cases hw : s.whiteToMove <;>
      simp [tickClocks, hg, hp, hw]
  · cases hg : s.gameOver <;> cases hp : s.peerLeft <;> cases hw : s.whiteToMove <;>
      simp [tickClocks, hg, hp, hw]
  · intro hp
    cases hg : s.gameOver <;> simp [gameTick, tickClocks, hp, hg]

/-- C8 (amended, witness): a tick after the peer left changes nothing. -/
theorem tick_clock_discipline_witness :
    stPL.peerLeft = true ∧ gameTick flipEngine stPL [] 0 = stPL :=
  ⟨rfl, (tick_clock_discipline flipEngine stPL [] 0).2.2 rfl⟩

/-- Newline count distributes over string append. -/
theorem countNl (s t : String) :
    (s ++ t).data.count '\n' = s.data.count '\n' + t.data.count '\n' := by
  rw [String.data_append, List.count_append]

/-- C3: every record passed to the wire by the program's two send sites is
one of exactly two shapes — a choose record carrying one of the two side
values, or a move record carrying a notation string and two clock
numbers — and `NetPlay.send` writes it as a single encoded object followed
by exactly one record-delimiter byte, with no delimiter byte occurring
inside the encoded object (given that the notation and the rendered
numbers are delimiter-free, which holds for `chess.Move.uci()` output and
Python float formatting).  The source's field names `uci`/`wtime`/`btime`
and side values `"white"`/`"black"` realize the spec's
`notation`/`clockA`/`clockB` and `"A"`/`"B"`. -/
theorem wire_record_shapes (numStr : ℚ → String) (r : WireRec)
    (h : recClean numStr r) :
    ((∃ c, r = WireRec.choose c ∧ (colorStr c = "white" ∨ colorStr c = "black")) ∨
      (∃ u w b, r = WireRec.move u w b)) ∧
    sendWire numStr r = jsonOfRec numStr r ++ "\n" ∧
    (jsonOfRec numStr r).data.count '\n' = 0 ∧
    (sendWire numStr r).data.count '\n' = 1 := by
  cases r with
  | choose c =>
      refine ⟨Or.inl ⟨c, rfl, by cases c <;> simp [colorStr]⟩, rfl, ?_, ?_⟩
      · cases c <;> simp only [jsonOfRec, colorStr] <;> decide
      · cases c <;> simp only [sendWire, jsonOfRec, colorStr] <;> decide
  | move u w b =>
      obtain ⟨hu, hw, hb⟩ := h
      have hz : (jsonOfRec numStr (WireRec.move u w b)).data.count '\n' = 0 := by
        show ("\x7b\"type\": \"move\", \"uci\": \"" ++ u ++ "\", \"wtime\": " ++ numStr w
          ++ ", \"btime\": " ++ numStr b ++ "\x7d").data.count '\n' = 0
        simp only [countNl]
        rw [List.count_eq_zero.mpr hu, List.count_eq_zero.mpr hw, List.count_eq_zero.mpr hb]
        decide
      refine ⟨Or.inr ⟨u, w, b, rfl⟩, rfl, hz, ?_⟩
      show (jsonOfRec numStr (WireRec.move u w b) ++ "\n").data.count '\n' = 1
      rw [countNl, hz]
      decide

/-- C3 (witness): the record the `main_game` send site builds for the move
"e2e4" with clocks 5 and 7. -/
theorem wire_record_shapes_witness :
    recClean numStr0 (moveRecordOf "e2e4" 5 7) ∧
    ((∃ c, moveRecordOf "e2e4" 5 7 = WireRec.choose c ∧
        (colorStr c = "white" ∨ colorStr c = "black")) ∨
      (∃ u w b, moveRecordOf "e2e4" 5 7 = WireRec.move u w b)) ∧
    sendWire numStr0 (moveRecordOf "e2e4" 5 7)
      = jsonOfRec numStr0 (moveRecordOf "e2e4" 5 7) ++ "\n" ∧
    (jsonOfRec numStr0 (moveRecordOf "e2e4" 5 7)).data.count '\n' = 0 ∧
    (sendWire numStr0 (moveRecordOf "e2e4" 5 7)).data.count '\n' = 1 :=
  ⟨⟨by decide, by decide, by decide⟩,
    wire_record_shapes numStr0 (moveRecordOf "e2e4" 5 7) ⟨by decide, by decide, by decide⟩⟩

/-- C4: (1) a peer that has already recorded a choice and receives a peer
announcement equal to it flips its own choice to the other side and does
not announce again (`sent` and the sent message are untouched); (2) for
every causally valid interleaving of the two peers' single announcements
in which the simultaneous-flip race (both peers flipping in their receive
handlers) does not occur, each peer flips at most once in total, both
negotiations resolve, and the two peers end up holding distinct sides. -/
theorem color_negotiation_flip_and_distinct :
    (∀ (s : PeerState) (c : SColor), s.loc = some c →
      (recvChoose c s).loc = some c.flip ∧
      (recvChoose c s).sent = s.sent ∧
      (recvChoose c s).sentMsg = s.sentMsg) ∧
    (∀ d1 d2 : SColor, ∀ e1 e2 e3 e4 : NegEv,
      isSched [e1, e2, e3, e4] = true → okOrder [e1, e2, e3, e4] = true →
      ¬(1 ≤ (runSched d1 d2 [e1, e2, e3, e4]).1.recvFlips ∧
          1 ≤ (runSched d1 d2 [e1, e2, e3, e4]).2.recvFlips) →
      totalFlips (runSched d1 d2 [e1, e2, e3, e4]).1 ≤ 1 ∧
      totalFlips (runSched d1 d2 [e1, e2, e3, e4]).2 ≤ 1 ∧
      (finalColor (runSched d1 d2 [e1, e2, e3, e4]).1).isSome = true ∧
      (finalColor (runSched d1 d2 [e1, e2, e3, e4]).2).isSome = true ∧
      finalColor (runSched d1 d2 [e1, e2, e3, e4]).1
        ≠ finalColor (runSched d1 d2 [e1, e2, e3, e4]).2) := by
  constructor
  · intro s c h
    simp [recvChoose, h]
  · intro d1 d2 e1 e2 e3 e4
    cases d1 <;> cases d2 <;> cases e1 <;> cases e2 <;> cases e3 <;> cases e4 <;> decide

/-- C4 (witness): the collision flip on a peer that chose and announced
white, and the race-free schedule in which peer 1 wants white and peer 2
wants black. -/
theorem color_negotiation_flip_and_distinct_witness :
    (peerW.loc = some SColor.white ∧
      ((recvChoose SColor.white peerW).loc = some (SColor.flip SColor.white) ∧
        (recvChoose SColor.white peerW).sent = peerW.sent ∧
        (recvChoose SColor.white peerW).sentMsg = peerW.sentMsg)) ∧
    (isSched schedW = true ∧ okOrder schedW = true ∧
      ¬(1 ≤ (runSched SColor.white SColor.black schedW).1.recvFlips ∧
          1 ≤ (runSched SColor.white SColor.black schedW).2.recvFlips) ∧
      (totalFlips (runSched SColor.white SColor.black schedW).1 ≤ 1 ∧
        totalFlips (runSched SColor.white SColor.black schedW).2 ≤ 1 ∧
        (finalColor (runSched SColor.white SColor.black schedW).1).isSome = true ∧
        (finalColor (runSched SColor.white SColor.black schedW).2).isSome = true ∧
        finalColor (runSched SColor.white SColor.black schedW).1
          ≠ finalColor (runSched SColor.white SColor.black schedW).2)) :=
  ⟨⟨rfl, color_negotiation_flip_and_distinct.1 peerW SColor.white rfl⟩,
    ⟨by decide, by decide, by decide,
      color_negotiation_flip_and_distinct.2 SColor.white SColor.black
        NegEv.p1 NegEv.p2 NegEv.r1 NegEv.r2 (by decide) (by decide) (by decide)⟩⟩

/-- C9 (counterexample): the flip at resolution time (lines 708–711) is
NOT unconditional: when the recorded choices already differ — local white,
remote black — the local choice is returned unflipped. -/
theorem resolution_no_flip_when_distinct :
    resolveStep SColor.white SColor.black = SColor.white ∧
    SColor.white ≠ SColor.flip SColor.white := by
  decide

/-- C9 (amended): at resolution time a flip is applied exactly when the
two recorded choices are equal, so the color `color_select_screen` returns
is always distinct from the last recorded remote choice — also in the
simultaneous-flip race. -/
theorem resolution_distinct_from_remote (l r : SColor) : resolveStep l r ≠ r := by
  cases l <;> cases r <;> decide

end PyChess
